import Mathlib

/-!
Verification of the audio upload/listing service (`main.py`).

Shallow embedding conventions:
* Python strings are lists of characters (`PyStr`); a string literal `"s"`
  becomes `"s".data`.
* Python `datetime` values are 7-field records (`DateTime`); a Python
  `datetime` object always carries fields inside the constructor's legal
  ranges (year 1..9999, month 1..12, valid day of month, hour < 24,
  minute/second < 60, microsecond < 10^6), which `dtFieldsValid` captures.
* Fallible code returns `Option` / `Except`; an uncaught Python exception is
  an `Except.error` (with the resulting HTTP status where relevant) or the
  dedicated `ParseResult.raises` constructor.
* The server's local timezone is modelled as a fixed frame (offset zero):
  the encoder and the decoder both operate on the same server-local civil
  instants, so the fixed frame loses nothing for the properties below.
* `datetime.fromtimestamp(e / 1000.0)` performs a float division; it is
  modelled exactly at millisecond precision (the division is exact at the
  microsecond rounding of `fromtimestamp` for all timestamps of realistic
  magnitude).
* `strftime` delegates `%Y` to the platform's C library; on the glibc
  deployment `%Y` is NOT zero-padded, so years below 1000 format with
  fewer than four digits (`padYear`).  `%m %d %H %M %S` are zero-padded to
  two digits by glibc, and `%f` is expanded by CPython itself to exactly
  six zero-padded digits.
-/

abbrev PyStr := List Char

/-- Python `datetime`: naive local date-time with a microsecond field. -/
structure DateTime where
  year : Nat
  month : Nat
  day : Nat
  hour : Nat
  minute : Nat
  second : Nat
  microsecond : Nat
deriving DecidableEq

/-- Value of an ASCII digit character. -/
def digitVal (c : Char) : Nat := c.toNat - 48

/-- The ASCII digit character for `n < 10`. -/
def digitChar (n : Nat) : Char := Char.ofNat (48 + n)

/-- The character class `[A-Fa-f0-9]` of `FILENAME_RE`. -/
def isHexDigitChar (c : Char) : Bool :=
  c.isDigit || ('A' ≤ c && c ≤ 'F') || ('a' ≤ c && c ≤ 'f')

/-- ASCII lowering of one character (`str.lower` restricted to ASCII,
which is all the device-id comparison needs). -/
def asciiLowerChar (c : Char) : Char :=
  if 'A' ≤ c && c ≤ 'Z' then Char.ofNat (c.toNat + 32) else c

/-- Python `s.lower()`. -/
def pyLower (s : PyStr) : PyStr := s.map asciiLowerChar

/-- Gregorian leap-year test, as used by Python's `datetime` validation. -/
def isLeapYear (y : Nat) : Bool := (y % 4 == 0 && y % 100 != 0) || y % 400 == 0

/-- Days in a month, as used by Python's `datetime` validation. -/
def daysInMonth (y m : Nat) : Nat :=
  if m = 2 then (if isLeapYear y then 29 else 28)
  else if m = 4 ∨ m = 6 ∨ m = 9 ∨ m = 11 then 30 else 31

/-- The legal field ranges of a Python `datetime` object: exactly the values
`datetime.datetime(y, mo, d, h, mi, s, us)` accepts. -/
def dtFieldsValid (dt : DateTime) : Bool :=
  1 ≤ dt.year && dt.year ≤ 9999 && 1 ≤ dt.month && dt.month ≤ 12 &&
  1 ≤ dt.day && dt.day ≤ daysInMonth dt.year dt.month &&
  dt.hour ≤ 23 && dt.minute ≤ 59 && dt.second ≤ 59 && dt.microsecond ≤ 999999

/-- Python `datetime` comparison `a < b`: lexicographic on the fields. -/
def dtLt (a b : DateTime) : Bool :=
  if a.year ≠ b.year then a.year < b.year
  else if a.month ≠ b.month then a.month < b.month
  else if a.day ≠ b.day then a.day < b.day
  else if a.hour ≠ b.hour then a.hour < b.hour
  else if a.minute ≠ b.minute then a.minute < b.minute
  else if a.second ≠ b.second then a.second < b.second
  else a.microsecond < b.microsecond

/-- Python `datetime` comparison `a <= b`. -/
def dtLe (a b : DateTime) : Bool := !(dtLt b a)

/-- Numeric value of a digit string (`int` on a string of digits). -/
def natOfDigits (l : PyStr) : Nat := l.foldl (fun a c => 10 * a + digitVal c) 0

/-- strftime `%m`/`%d`/`%H`/`%M`/`%S`: two zero-padded digits. -/
def pad2 (n : Nat) : PyStr := [digitChar (n / 10 % 10), digitChar (n % 10)]

/-- Three zero-padded digits (the millisecond part left by `[:-3]`). -/
def pad3 (n : Nat) : PyStr :=
  [digitChar (n / 100 % 10), digitChar (n / 10 % 10), digitChar (n % 10)]

/-- Four decimal digits: the `%Y` output for years 1000-9999 (a `datetime`
year never exceeds 9999, so the `% 10` truncation is never exercised by the
program). -/
def pad4 (n : Nat) : PyStr :=
  [digitChar (n / 1000 % 10), digitChar (n / 100 % 10), digitChar (n / 10 % 10),
   digitChar (n % 10)]

/-- strftime `%f`: six zero-padded digits of the microsecond. -/
def pad6 (n : Nat) : PyStr :=
  [digitChar (n / 100000 % 10), digitChar (n / 10000 % 10), digitChar (n / 1000 % 10),
   digitChar (n / 100 % 10), digitChar (n / 10 % 10), digitChar (n % 10)]

/-- strftime `%Y` as glibc prints it: the decimal digits of the year with
no zero padding (one digit for 1-9, two for 10-99, three for 100-999, four
from 1000 on; `datetime` years never exceed 9999). -/
def padYear (n : Nat) : PyStr :=
  if n ≤ 9 then [digitChar (n % 10)]
  else if n ≤ 99 then pad2 n
  else if n ≤ 999 then pad3 n
  else pad4 n

/-- `dt.strftime("%Y%m%d_%H%M%S_%f")`. -/
def strftime_ymd_hms_f (dt : DateTime) : PyStr :=
  padYear dt.year ++ pad2 dt.month ++ pad2 dt.day ++ '_' ::
    (pad2 dt.hour ++ pad2 dt.minute ++ pad2 dt.second) ++ '_' :: pad6 dt.microsecond

/-- `dt.strftime("%Y%m%d_%H%M%S_%f")[:-3]`: the `YYYYMMDD_HHMMSS_mmm` string
used for both halves of the stored filename (`start_str` / `end_str`). -/
def fmt_ms (dt : DateTime) : PyStr :=
  (strftime_ymd_hms_f dt).take ((strftime_ymd_hms_f dt).length - 3)

/-- The shape `\\d{8}_\\d{6}_\\d{3}` of one date/time group of `FILENAME_RE`
(Python `\\d` restricted to ASCII digits, which is all the encoder emits). -/
def dtGroupShape (l : PyStr) : Bool :=
  match l with
  | [a1, a2, a3, a4, a5, a6, a7, a8, u1, b1, b2, b3, b4, b5, b6, u2, c1, c2, c3] =>
    ([a1, a2, a3, a4, a5, a6, a7, a8, b1, b2, b3, b4, b5, b6, c1, c2, c3].all Char.isDigit)
      && (u1 == '_') && (u2 == '_')
  | _ => false

/-- ASCII whitespace accepted by Python `int(str)`. -/
def isPySpace (c : Char) : Bool :=
  c == ' ' || c == '\t' || c == '\n' || c == '\r' || c == '\x0b' || c == '\x0c'

/-- Strip leading and trailing whitespace. -/
def pyStrip (s : PyStr) : PyStr :=
  ((s.dropWhile isPySpace).reverse.dropWhile isPySpace).reverse

/-- Digit run of a Python integer literal: digits with single underscores
allowed between digits only.  `prevDigit` records whether the previous
character was a digit (so an underscore is currently allowed). -/
def pyDigitsCore (prevDigit : Bool) (acc : Nat) : PyStr → Option Nat
  | [] => if prevDigit then some acc else none
  | c :: r =>
    if c.isDigit then pyDigitsCore true (10 * acc + digitVal c) r
    else if c == '_' && prevDigit then pyDigitsCore false acc r
    else none

/-- Python `int(s)` on a string: optional surrounding whitespace, optional
sign, digit run.  `none` models the `ValueError`. -/
def pyIntOfString (s : PyStr) : Option Int :=
  let t := pyStrip s
  if t.head? = some '+' then (pyDigitsCore false 0 t.tail).map Int.ofNat
  else if t.head? = some '-' then (pyDigitsCore false 0 t.tail).map (fun n => -(n : Int))
  else (pyDigitsCore false 0 t).map Int.ofNat

/-- Python `s.split("_")`. -/
def pySplitU : PyStr → List PyStr
  | [] => [[]]
  | c :: r =>
    let rest := pySplitU r
    if c = '_' then [] :: rest
    else
      match rest with
      | [] => [[c]]
      | p :: ps => (c :: p) :: ps

/-- The `_strptime` sub-pattern for a two-digit `%m`: `1[0-2]|0[1-9]`. -/
def monthOk2 (l : PyStr) : Bool :=
  match l with
  | [c1, c2] => (c1 == '1' && ('0' ≤ c2 && c2 ≤ '2')) || (c1 == '0' && ('1' ≤ c2 && c2 ≤ '9'))
  | _ => false

/-- The one-digit `%m` alternative: `[1-9]`. -/
def monthOk1 (l : PyStr) : Bool :=
  match l with
  | [c] => '1' ≤ c && c ≤ '9'
  | _ => false

/-- The `_strptime` sub-pattern for a two-digit `%d`: `3[01]|[12]\d|0[1-9]`. -/
def dayOk2 (l : PyStr) : Bool :=
  match l with
  | [c1, c2] =>
    (c1 == '3' && ('0' ≤ c2 && c2 ≤ '1')) || ((c1 == '1' || c1 == '2') && c2.isDigit) ||
      (c1 == '0' && ('1' ≤ c2 && c2 ≤ '9'))
  | _ => false

/-- The one-digit `%d` alternative: `[1-9]`. -/
def dayOk1 (l : PyStr) : Bool :=
  match l with
  | [c] => '1' ≤ c && c ≤ '9'
  | _ => false

/-- The two-digit `%H` alternatives: `2[0-3]|[0-1]\d`. -/
def hourOk2 (l : PyStr) : Bool :=
  match l with
  | [c1, c2] => (c1 == '2' && ('0' ≤ c2 && c2 ≤ '3')) || (('0' ≤ c1 && c1 ≤ '1') && c2.isDigit)
  | _ => false

/-- The two-digit `%M` alternative: `[0-5]\d`. -/
def minuteOk2 (l : PyStr) : Bool :=
  match l with
  | [c1, c2] => ('0' ≤ c1 && c1 ≤ '5') && c2.isDigit
  | _ => false

/-- The two-digit `%S` alternatives: `6[01]|[0-5]\d` (60 and 61 pass the
regex but are rejected by the `datetime` constructor afterwards). -/
def secondOk2 (l : PyStr) : Bool :=
  match l with
  | [c1, c2] => (c1 == '6' && ('0' ≤ c2 && c2 ≤ '1')) || (('0' ≤ c1 && c1 ≤ '5') && c2.isDigit)
  | _ => false

/-- One candidate split of the date digits `D` into a `a`-digit year,
`b`-digit month and `c`-digit day.  The literal `_` after the date part in
the composed string forces the three groups to consume `D` exactly, so the
split succeeds iff `a + b + c = |D|`, the year slice is all digits, and the
month/day slices match their `_strptime` sub-patterns. -/
def dateTrySplit (D : PyStr) (a b c : Nat) (mOk dOk : PyStr → Bool) :
    Option (Nat × Nat × Nat) :=
  if a + b + c = D.length ∧ (D.take a).all Char.isDigit = true ∧
      mOk ((D.drop a).take b) = true ∧ dOk ((D.drop (a + b)).take c) = true then
    some (natOfDigits (D.take a), natOfDigits ((D.drop a).take b),
      natOfDigits ((D.drop (a + b)).take c))
  else none

/-- First successful candidate, in order. -/
def firstSome : List (Option (Nat × Nat × Nat)) → Option (Nat × Nat × Nat)
  | [] => none
  | o :: rest =>
    match o with
    | some v => some v
    | none => firstSome rest

/-- `_strptime`'s backtracking over `%Y%m%d` applied to the date digits:
the regex alternations are ordered (year `\d{4}|\d{3}|\d{2}|\d`, then the
two-digit month/day alternatives before the one-digit ones), and the engine
explores them depth-first, so the first candidate split in this
lexicographic order that matches and consumes all the digits wins.  This is
how an unpadded 3-digit year re-splits: `"7020101"` parses as year 7020,
month 10, day 1. -/
def dateSplit (D : PyStr) : Option (Nat × Nat × Nat) :=
  firstSome
    [dateTrySplit D 4 2 2 monthOk2 dayOk2, dateTrySplit D 4 2 1 monthOk2 dayOk1,
     dateTrySplit D 4 1 2 monthOk1 dayOk2, dateTrySplit D 4 1 1 monthOk1 dayOk1,
     dateTrySplit D 3 2 2 monthOk2 dayOk2, dateTrySplit D 3 2 1 monthOk2 dayOk1,
     dateTrySplit D 3 1 2 monthOk1 dayOk2, dateTrySplit D 3 1 1 monthOk1 dayOk1,
     dateTrySplit D 2 2 2 monthOk2 dayOk2, dateTrySplit D 2 2 1 monthOk2 dayOk1,
     dateTrySplit D 2 1 2 monthOk1 dayOk2, dateTrySplit D 2 1 1 monthOk1 dayOk1,
     dateTrySplit D 1 2 2 monthOk2 dayOk2, dateTrySplit D 1 2 1 monthOk2 dayOk1,
     dateTrySplit D 1 1 2 monthOk1 dayOk2, dateTrySplit D 1 1 1 monthOk1 dayOk1]

/-- `%H%M%S` on the time digits.  Both producers of the time part emit
exactly six digits (the `\d{6}` group of `FILENAME_RE`, and the glibc
two-digit-padded `%H%M%S` of the encoder), in which case the only split
consuming all six is 2+2+2; other arities are unreachable in this program
and are not modelled. -/
def timeSplit (T : PyStr) : Option (Nat × Nat × Nat) :=
  match T with
  | [h1, h2, m1, m2, s1, s2] =>
    if hourOk2 [h1, h2] && minuteOk2 [m1, m2] && secondOk2 [s1, s2] then
      some (natOfDigits [h1, h2], natOfDigits [m1, m2], natOfDigits [s1, s2])
    else none
  | _ => none

/-- Model of the inner `parse_ms_dt`: `s.split("_")` must produce exactly
three parts (tuple unpacking raises otherwise), `int(ms_part)` must parse
(else `ValueError`), and `f"{date}_{time}_{us:06d}"` is re-parsed with
`datetime.strptime(..., "%Y%m%d_%H%M%S_%f")`: the date digits are split by
`dateSplit`, the time digits by `timeSplit`, `%f` consumes the six
microsecond digits (a microsecond value needing more than six digits makes
the full-length check fail), and finally the `datetime` constructor
validates the fields (`dtFieldsValid`).  `none` models the raised
`ValueError`. -/
def parse_ms_dt (s : PyStr) : Option DateTime :=
  match pySplitU s with
  | [dpart, tpart, mspart] =>
    match pyIntOfString mspart with
    | none => none
    | some msI =>
      if msI < 0 ∨ 999999 < msI * 1000 then none
      else
        match dateSplit dpart, timeSplit tpart with
        | some (y, mo, d), some (h, mi, sec) =>
          let dt : DateTime := ⟨y, mo, d, h, mi, sec, (msI * 1000).toNat⟩
          if dtFieldsValid dt then some dt else none
        | _, _ => none
  | _ => none

/-- Model of `.+$` applied to the remainder after the device-id group:
in Python `.` matches any character except a newline, and `$` matches at the
end of the string or just before one final trailing newline.  So the match
succeeds iff the remainder, after dropping one trailing newline if present,
is non-empty and newline-free; the group is that trimmed remainder. -/
def restMatch (r : PyStr) : Option PyStr :=
  let core := if r.getLast? = some '\n' then r.dropLast else r
  if core = [] ∨ '\n' ∈ core then none else some core

/-- Model of `FILENAME_RE.match`: anchored
`^(\\d{8}_\\d{6}_\\d{3})_(\\d{8}_\\d{6}_\\d{3})_([A-Fa-f0-9]+)_(.+)$`.
The two date/time groups are fixed-width (19 characters each), so their
positions are forced; `[A-Fa-f0-9]+` greedily takes the maximal run of hex
characters (backtracking to a shorter run cannot help, because the character
after a shorter run is again a hex character, never the required `_`).
Returns the four groups (start, end, mac, rest) or `none`. -/
def matchFilenameRE (l : PyStr) : Option (PyStr × PyStr × PyStr × PyStr) :=
  let s := l.take 19
  match l.drop 19 with
  | '_' :: l2 =>
    let e := l2.take 19
    match l2.drop 19 with
    | '_' :: tail =>
      if dtGroupShape s && dtGroupShape e then
        let mac := tail.takeWhile isHexDigitChar
        match tail.dropWhile isHexDigitChar with
        | '_' :: r =>
          if mac = [] then none
          else
            match restMatch r with
            | some rest => some (s, e, mac, rest)
            | none => none
        | _ => none
      else none
    | _ => none
  | _ => none

/-- The record `parse_filename` builds from the four regex groups. -/
structure DecodedRecord where
  filename : PyStr
  mac : PyStr
  startLocal : DateTime
  endLocal : DateTime
  rest : PyStr
deriving DecidableEq

/-- Outcome of `parse_filename`: regex failure returns `None` (`noMatch`);
a regex match whose date/time groups are digit-shaped but not a valid
calendar date/time makes the un-guarded `strptime` call raise `ValueError`
(`raises`); otherwise the decoded record is returned. -/
inductive ParseResult where
  | noMatch
  | raises
  | parsed (r : DecodedRecord)
deriving DecidableEq

/-- `parse_filename` of `main.py`. -/
def parse_filename (filename : PyStr) : ParseResult :=
  match matchFilenameRE filename with
  | none => .noMatch
  | some (s, e, mac, rest) =>
    match parse_ms_dt s, parse_ms_dt e with
    | some sd, some ed => .parsed ⟨filename, mac, sd, ed, rest⟩
    | _, _ => .raises

/-- `str(meta["mac"]).replace(":", "").replace("-", "")`. -/
def mac_clean (mac : PyStr) : PyStr := mac.filter (fun c => (c != ':') && (c != '-'))

/-- `os.path.basename` on POSIX: the suffix after the last `/`. -/
def osBasename (s : PyStr) : PyStr := (s.reverse.takeWhile (fun c => c != '/')).reverse

/-- The concatenation `f"{start_str}_{end_str}_{mac_clean}_{orig_name}"`
performed by `upload_audio`, with the mac already cleaned and the original
name already reduced to its basename. -/
def encode_filename (sd ed : DateTime) (macc name : PyStr) : PyStr :=
  fmt_ms sd ++ '_' :: (fmt_ms ed ++ '_' :: (macc ++ '_' :: name))

/-- The full stored-filename derivation of `upload_audio` from the metadata
fields: basename of the name, separator-stripped mac, formatted instants. -/
def upload_filename (sd ed : DateTime) (mac name : PyStr) : PyStr :=
  encode_filename sd ed (mac_clean mac) (osBasename name)

/-- `dt` with its microsecond truncated to millisecond precision, which is
what surviving the `[:-3]` formatting preserves. -/
def truncUsToMs (dt : DateTime) : DateTime :=
  { dt with microsecond := dt.microsecond / 1000 * 1000 }

/-- A `startTime`/`endTime` metadata value: a JSON number (modelled as an
integer) or a JSON string. -/
inductive TsValue where
  | int (i : Int)
  | str (s : PyStr)
deriving DecidableEq

/-- Python `int(ts)` on a start/end-time metadata value. -/
def pyToInt : TsValue → Option Int
  | .int i => some i
  | .str s => pyIntOfString s

/-- Civil date from a day count (days since 1970-01-01), using the standard
era decomposition of the proleptic Gregorian calendar.  This models the
epoch-to-calendar conversion performed by `datetime.fromtimestamp`. -/
def civil_from_days (z0 : Int) : Int × Int × Int :=
  let z := z0 + 719468
  let era := z.fdiv 146097
  let doe := z - era * 146097
  let yoe := (doe - doe.fdiv 1460 + doe.fdiv 36524 - doe.fdiv 146096).fdiv 365
  let y := yoe + era * 400
  let doy := doe - (365 * yoe + yoe.fdiv 4 - yoe.fdiv 100)
  let mp := (5 * doy + 2).fdiv 153
  let d := doy - (153 * mp + 2).fdiv 5 + 1
  let m := if mp < 10 then mp + 3 else mp - 9
  (if m ≤ 2 then y + 1 else y, m, d)

/-- `datetime.fromtimestamp` at millisecond resolution: builds the civil
date-time for an epoch given in milliseconds, in the fixed server-local
frame.  Returns `none` when the result falls outside the legal `datetime`
ranges, modelling the `OverflowError`/`ValueError` raised for out-of-range
timestamps. -/
def dtOfEpochMs (ms : Int) : Option DateTime :=
  let q := ms.fdiv 1000
  let us := (ms.emod 1000).toNat * 1000
  let days := q.fdiv 86400
  let sod := (q.emod 86400).toNat
  let c := civil_from_days days
  let dt : DateTime :=
    ⟨c.1.toNat, c.2.1.toNat, c.2.2.toNat, sod / 3600, sod % 3600 / 60, sod % 60, us⟩
  if dtFieldsValid dt then some dt else none

/-- The unit heuristic of `ts_to_local_datetime`: a value at or above 10^12
is taken to be milliseconds (`ts_sec = ts_int / 1000.0`), anything below —
including every negative value — is taken to be seconds.  The result is the
epoch in milliseconds. -/
def ts_epoch_ms (i : Int) : Int := if i ≥ 1000000000000 then i else i * 1000

/-- Wrap `fromtimestamp`'s outcome: an out-of-range timestamp raises an
exception that is not an `HTTPException`, which the upload handler's
catch-all converts to HTTP 500. -/
def tsFrom : Option DateTime → Except Nat DateTime
  | some dt => .ok dt
  | none => .error 500

/-- `ts_to_local_datetime` of `main.py`: coerce to `int` (a failure raises
`HTTPException(400)`), apply the unit heuristic, convert to a local
date-time. -/
def ts_to_local_datetime (v : TsValue) : Except Nat DateTime :=
  match pyToInt v with
  | none => .error 400
  | some i => tsFrom (dtOfEpochMs (ts_epoch_ms i))

/-- `guess_media_type` of `main.py`. -/
def guess_media_type (filename : PyStr) : PyStr :=
  let lower := pyLower filename
  if (".wav".data).isSuffixOf lower then "audio/wav".data
  else if (".mp3".data).isSuffixOf lower then "audio/mpeg".data
  else if (".m4a".data).isSuffixOf lower then "audio/mp4".data
  else if (".aac".data).isSuffixOf lower then "audio/aac".data
  else "application/octet-stream".data

/-- One element of the listing response's `data` array. -/
structure AudioItem where
  id : PyStr
  filename : PyStr
  mac : PyStr
  startLocal : DateTime
  endLocal : DateTime
  size : Nat
  contentType : PyStr
  url : PyStr
deriving DecidableEq

/-- Build the response item for one decoded file (`items.append({...})`
in `list_audio`; the internal `_start_dt` sort key is the `startLocal`
field). -/
def mkAudioItem (baseUrl fname : PyStr) (sz : Nat) (r : DecodedRecord) : AudioItem :=
  { id := fname, filename := fname, mac := r.mac,
    startLocal := r.startLocal, endLocal := r.endLocal, size := sz,
    contentType := guess_media_type fname,
    url := baseUrl ++ "/thingx/api/audio/file/".data ++ fname }

/-- The three `continue` filters of `list_audio` for one decoded entry:
mac filter (skipped when the query value is absent or empty, Python
truthiness), `from` filter (skip when `endLocal < from_dt`), `to` filter
(skip when `startLocal > to_dt`).  `true` means the entry is kept. -/
def entryKept (macF : Option PyStr) (fromDt toDt : Option DateTime)
    (r : DecodedRecord) : Bool :=
  (match macF with
   | none => true
   | some m => if m = [] then true else pyLower r.mac == pyLower m) &&
  (match fromDt with
   | none => true
   | some f => !(dtLt r.endLocal f)) &&
  (match toDt with
   | none => true
   | some t => !(dtLt t r.startLocal))

/-- The enumeration loop of `list_audio` over the directory's (file name,
size) entries, in directory order.  A filename the regex rejects is skipped
silently; a filename whose date/time groups make `strptime` raise aborts
the whole request (`Except.error`, surfacing as HTTP 500). -/
def collectItems (baseUrl : PyStr) (macF : Option PyStr)
    (fromDt toDt : Option DateTime) : List (PyStr × Nat) → Except Unit (List AudioItem)
  | [] => .ok []
  | (fname, sz) :: rest =>
    match parse_filename fname with
    | .raises => .error ()
    | .noMatch => collectItems baseUrl macF fromDt toDt rest
    | .parsed r =>
      match collectItems baseUrl macF fromDt toDt rest with
      | .error e => .error e
      | .ok items =>
        .ok (if entryKept macF fromDt toDt r then mkAudioItem baseUrl fname sz r :: items
             else items)

/-- Stable insertion of an item into a list sorted ascending by
`startLocal`. -/
def insertByStart (x : AudioItem) : List AudioItem → List AudioItem
  | [] => [x]
  | y :: ys => if dtLt y.startLocal x.startLocal then y :: insertByStart x ys
               else x :: y :: ys

/-- `items.sort(key=lambda x: x["_start_dt"])`: stable ascending sort by the
recording start instant. -/
def sortByStart : List AudioItem → List AudioItem
  | [] => []
  | x :: xs => insertByStart x (sortByStart xs)

/-- The `list_audio` response body. -/
structure ListResponse where
  code : Nat
  count : Nat
  data : List AudioItem
deriving DecidableEq

/-- Default of the `limit` query parameter (`limit: int = 500`). -/
def list_audio_default_limit : Int := 500

/-- `list_audio` of `main.py`, over the directory's current (file name,
size) entries: decode and filter each entry, sort by start instant, report
the pre-cap count, and truncate `data` to `max(1, limit)` entries. -/
def list_audio (entries : List (PyStr × Nat)) (baseUrl : PyStr)
    (macF : Option PyStr) (fromDt toDt : Option DateTime) (limit : Int) :
    Except Unit ListResponse :=
  match collectItems baseUrl macF fromDt toDt entries with
  | .error e => .error e
  | .ok items => .ok ⟨200, items.length, (sortByStart items).take (max 1 limit).toNat⟩

/-- `get_audio_file` of `main.py` over the set of file names present in the
upload directory: reduce the supplied filename to its basename, serve it if
the joined path exists, else raise `HTTPException(404)`.  An empty basename
makes `os.path.join(UPLOAD_DIR, "")` the upload directory itself, which
always exists. -/
def get_audio_file (files : List PyStr) (filename : PyStr) : Except Nat PyStr :=
  let safe := osBasename filename
  if safe = [] ∨ safe ∈ files then .ok safe else .error 404

/-- The spec's statement of the time-range filter, written from its words:
keep an entry iff (no `fromInstant` given OR the entry's end instant is at
least `fromInstant`) AND (no `toInstant` given OR the entry's start instant
is at most `toInstant`).  Used to compare the code's filter against the
spec (claim C4). -/
def specOverlapKeep (fromDt toDt : Option DateTime) (r : DecodedRecord) : Prop :=
  (∀ f, fromDt = some f → dtLe f r.endLocal = true) ∧
  (∀ t, toDt = some t → dtLe r.startLocal t = true)

/-- A sample valid instant used in concrete witnesses. -/
def dtSampleA : DateTime := ⟨2026, 2, 4, 13, 35, 55, 69000⟩

/-- A decoded entry spanning 10:00-10:30, used to witness the overlap
filter on a recording that straddles the filter boundary. -/
def recStraddle : DecodedRecord :=
  ⟨[], [], ⟨2026, 2, 4, 10, 0, 0, 0⟩, ⟨2026, 2, 4, 10, 30, 0, 0⟩, []⟩

/-- A decoded entry with an upper-case hex device id. -/
def recHexMac : DecodedRecord := ⟨[], "4CFF01A007C2".data, dtSampleA, dtSampleA, []⟩

/-- The instant produced by normalizing the sample epoch second count. -/
def dtC6 : DateTime :=
  match ts_to_local_datetime (.int 1770000000) with
  | .ok dt => dt
  | .error _ => ⟨1, 1, 1, 0, 0, 0, 0⟩

/-- The instant produced by normalizing the epoch -40000000000 seconds:
a year-702 instant, whose unpadded `%Y` breaks the round-trip. -/
def dtC6cex : DateTime :=
  match ts_to_local_datetime (.int (-40000000000)) with
  | .ok dt => dt
  | .error _ => ⟨1, 1, 1, 0, 0, 0, 0⟩

/-- A sample managed filename. -/
def fileA : PyStr :=
  upload_filename ⟨2026, 2, 4, 13, 35, 55, 69000⟩ ⟨2026, 2, 4, 13, 36, 55, 619000⟩
    ("4CFF01A007C2".data) ("foo.wav".data)

/-- A second sample managed filename with a later start. -/
def fileB : PyStr :=
  upload_filename ⟨2026, 2, 5, 9, 0, 0, 0⟩ ⟨2026, 2, 5, 9, 30, 0, 0⟩
    ("AA01".data) ("bar.mp3".data)

/-- A sample directory of two managed files. -/
def entriesSample : List (PyStr × Nat) := [(fileA, 10), (fileB, 20)]

/-- The listing response for the sample directory at `limit = 0`. -/
def respC5 : ListResponse :=
  match list_audio entriesSample [] none none none 0 with
  | .ok r => r
  | .error _ => ⟨0, 0, []⟩

/-- The listing response for the sample directory at `limit = 1`. -/
def respC9 : ListResponse :=
  match list_audio entriesSample [] none none none 1 with
  | .ok r => r
  | .error _ => ⟨0, 0, []⟩

/-! ### Digit and formatting lemmas -/

theorem digitVal_digitChar (k : Nat) : digitVal (digitChar (k % 10)) = k % 10 := by
  have h : k % 10 < 10 := Nat.mod_lt _ (by norm_num)
  interval_cases h : k % 10 <;> rfl

theorem isDigit_digitChar (k : Nat) : (digitChar (k % 10)).isDigit = true := by
  have h : k % 10 < 10 := Nat.mod_lt _ (by norm_num)
  interval_cases h : k % 10 <;> rfl

theorem natOfDigits_two (n : Nat) (h : n ≤ 99) :
    natOfDigits [digitChar (n / 10 % 10), digitChar (n % 10)] = n := by
  simp [natOfDigits, digitVal_digitChar]
  omega

theorem natOfDigits_three (n : Nat) (h : n ≤ 999) :
    natOfDigits [digitChar (n / 100 % 10), digitChar (n / 10 % 10), digitChar (n % 10)] = n := by
  simp [natOfDigits, digitVal_digitChar]
  omega

theorem natOfDigits_four (n : Nat) (h : n ≤ 9999) :
    natOfDigits [digitChar (n / 1000 % 10), digitChar (n / 100 % 10),
      digitChar (n / 10 % 10), digitChar (n % 10)] = n := by
  simp [natOfDigits, digitVal_digitChar]
  omega

theorem natOfDigits_pad2 (n : Nat) (h : n ≤ 99) : natOfDigits (pad2 n) = n :=
  natOfDigits_two n h

theorem natOfDigits_pad3 (n : Nat) (h : n ≤ 999) : natOfDigits (pad3 n) = n :=
  natOfDigits_three n h

theorem natOfDigits_pad4 (n : Nat) (h : n ≤ 9999) : natOfDigits (pad4 n) = n :=
  natOfDigits_four n h

theorem padYear_eq_pad4 (n : Nat) (h : 1000 ≤ n) : padYear n = pad4 n := by
  unfold padYear
  rw [if_neg (by omega), if_neg (by omega), if_neg (by omega)]

theorem length_padYear_le (n : Nat) (h : n ≤ 999) : (padYear n).length ≤ 3 := by
  by_cases h9 : n ≤ 9
  · unfold padYear
    rw [if_pos h9]
    simp
  · by_cases h99 : n ≤ 99
    · unfold padYear
      rw [if_neg h9, if_pos h99]
      simp [pad2]
    · unfold padYear
      rw [if_neg h9, if_neg h99, if_pos h]
      simp [pad3]

theorem underscore_ne_digitChar (k : Nat) : ('_' : Char) ≠ digitChar (k % 10) := by
  have h : k % 10 < 10 := Nat.mod_lt _ (by norm_num)
  interval_cases h : k % 10 <;> decide

theorem fmt_ms_eq_gen (dt : DateTime) :
    fmt_ms dt = padYear dt.year ++ pad2 dt.month ++ pad2 dt.day ++ '_' ::
      (pad2 dt.hour ++ pad2 dt.minute ++ pad2 dt.second) ++ '_' ::
      pad3 (dt.microsecond / 1000) := by
  have h1 : dt.microsecond / 1000 / 100 = dt.microsecond / 100000 := by
    rw [Nat.div_div_eq_div_mul]
  have h2 : dt.microsecond / 1000 / 10 = dt.microsecond / 10000 := by
    rw [Nat.div_div_eq_div_mul]
  have hsplit : strftime_ymd_hms_f dt =
      (padYear dt.year ++ pad2 dt.month ++ pad2 dt.day ++ '_' ::
        (pad2 dt.hour ++ pad2 dt.minute ++ pad2 dt.second) ++ '_' ::
        pad3 (dt.microsecond / 1000)) ++
        [digitChar (dt.microsecond / 100 % 10), digitChar (dt.microsecond / 10 % 10),
         digitChar (dt.microsecond % 10)] := by
    simp [strftime_ymd_hms_f, pad2, pad3, pad6, h1, h2]
  rw [fmt_ms, hsplit]
  refine List.take_left' ?_
  simp [pad2, pad3]

theorem fmt_ms_eq (dt : DateTime) (hy : 1000 ≤ dt.year) :
    fmt_ms dt = pad4 dt.year ++ pad2 dt.month ++ pad2 dt.day ++ '_' ::
      (pad2 dt.hour ++ pad2 dt.minute ++ pad2 dt.second) ++ '_' ::
      pad3 (dt.microsecond / 1000) := by
  rw [fmt_ms_eq_gen, padYear_eq_pad4 _ hy]

theorem length_fmt_ms (dt : DateTime) (hy : 1000 ≤ dt.year) : (fmt_ms dt).length = 19 := by
  rw [fmt_ms_eq dt hy]
  simp [pad2, pad3, pad4]

theorem dtGroupShape_fmt_ms (dt : DateTime) (hy : 1000 ≤ dt.year) :
    dtGroupShape (fmt_ms dt) = true := by
  rw [fmt_ms_eq dt hy]
  simp only [pad2, pad3, pad4, List.cons_append, List.nil_append]
  simp [dtGroupShape, isDigit_digitChar]

theorem dtFieldsValid_truncUsToMs (dt : DateTime) (h : dtFieldsValid dt = true) :
    dtFieldsValid (truncUsToMs dt) = true := by
  simp only [dtFieldsValid, truncUsToMs, Bool.and_eq_true, decide_eq_true_eq] at h ⊢
  omega

/-! ### Splitting and strptime lemmas -/

theorem pySplitU_append_sep (l r : PyStr) (hl : '_' ∉ l) :
    pySplitU (l ++ '_' :: r) = l :: pySplitU r := by
  induction l with
  | nil => simp [pySplitU]
  | cons c t ih =>
    simp only [List.mem_cons, not_or] at hl
    have hc : ¬c = '_' := fun he => hl.1 he.symm
    simp [pySplitU, hc, ih hl.2]

theorem pySplitU_no_sep (l : PyStr) (hl : '_' ∉ l) : pySplitU l = [l] := by
  induction l with
  | nil => rfl
  | cons c t ih =>
    simp only [List.mem_cons, not_or] at hl
    have hc : ¬c = '_' := fun he => hl.1 he.symm
    simp [pySplitU, hc, ih hl.2]

theorem digit_not_space (c : Char) (h : c.isDigit = true) : isPySpace c = false := by
  by_cases h1 : c = ' '
  · subst h1; exact absurd h (by decide)
  · by_cases h2 : c = '\t'
    · subst h2; exact absurd h (by decide)
    · by_cases h3 : c = '\n'
      · subst h3; exact absurd h (by decide)
      · by_cases h4 : c = '\r'
        · subst h4; exact absurd h (by decide)
        · by_cases h5 : c = '\x0b'
          · subst h5; exact absurd h (by decide)
          · by_cases h6 : c = '\x0c'
            · subst h6; exact absurd h (by decide)
            · simp [isPySpace, h1, h2, h3, h4, h5, h6]

theorem pyStrip_all_digits (l : PyStr) (h : l.all Char.isDigit = true) : pyStrip l = l := by
  have hds : l.dropWhile isPySpace = l := by
    cases l with
    | nil => rfl
    | cons c t =>
      have hc : c.isDigit = true := by
        simp only [List.all_cons, Bool.and_eq_true] at h
        exact h.1
      simp [List.dropWhile, digit_not_space c hc]
  have hrev : l.reverse.dropWhile isPySpace = l.reverse := by
    cases hr : l.reverse with
    | nil => rfl
    | cons c t =>
      have hc : c ∈ l := by
        rw [← List.mem_reverse, hr]
        simp
      have hcd : c.isDigit = true := (List.all_eq_true.mp h) c hc
      simp [List.dropWhile, digit_not_space c hcd]
  unfold pyStrip
  rw [hds, hrev, List.reverse_reverse]

theorem pyDigitsCore_digits (l : PyStr) :
    ∀ (acc : Nat) (b : Bool), l.all Char.isDigit = true → (b = true ∨ l ≠ []) →
    pyDigitsCore b acc l = some (l.foldl (fun a c => 10 * a + digitVal c) acc) := by
  induction l with
  | nil =>
    intro acc b _ hb
    rcases hb with hb | hb
    · subst hb; rfl
    · exact absurd rfl hb
  | cons c t ih =>
    intro acc b h _
    simp only [List.all_cons, Bool.and_eq_true] at h
    simp [pyDigitsCore, h.1, ih _ true h.2 (Or.inl rfl)]

theorem pyIntOfString_digits (l : PyStr) (hne : l ≠ []) (h : l.all Char.isDigit = true) :
    pyIntOfString l = some (Int.ofNat (natOfDigits l)) := by
  unfold pyIntOfString
  rw [pyStrip_all_digits l h]
  cases l with
  | nil => exact absurd rfl hne
  | cons c t =>
    have hc : c.isDigit = true := by
      simp only [List.all_cons, Bool.and_eq_true] at h
      exact h.1
    have h1 : ¬(c :: t).head? = some '+' := by
      simp only [List.head?_cons, Option.some.injEq]
      intro he
      subst he
      exact absurd hc (by decide)
    have h2 : ¬(c :: t).head? = some '-' := by
      simp only [List.head?_cons, Option.some.injEq]
      intro he
      subst he
      exact absurd hc (by decide)
    rw [if_neg h1, if_neg h2, pyDigitsCore_digits (c :: t) 0 false h (Or.inr (by simp))]
    rfl

theorem monthOk2_pad2 (n : Nat) (h1 : 1 ≤ n) (h2 : n ≤ 12) : monthOk2 (pad2 n) = true := by
  unfold pad2
  interval_cases n <;> decide

theorem dayOk2_pad2 (n : Nat) (h1 : 1 ≤ n) (h2 : n ≤ 31) : dayOk2 (pad2 n) = true := by
  unfold pad2
  interval_cases n <;> decide

theorem hourOk2_pad2 (n : Nat) (h : n ≤ 23) : hourOk2 (pad2 n) = true := by
  unfold pad2
  interval_cases n <;> decide

theorem minuteOk2_pad2 (n : Nat) (h : n ≤ 59) : minuteOk2 (pad2 n) = true := by
  unfold pad2
  interval_cases n <;> decide

theorem secondOk2_pad2 (n : Nat) (h : n ≤ 59) : secondOk2 (pad2 n) = true := by
  unfold pad2
  interval_cases n <;> decide

theorem dateSplit_pads (y mo d : Nat) (hy : y ≤ 9999) (hmo1 : 1 ≤ mo) (hmo2 : mo ≤ 12)
    (hd1 : 1 ≤ d) (hd2 : d ≤ 31) :
    dateSplit (pad4 y ++ pad2 mo ++ pad2 d) = some (y, mo, d) := by
  have hD2 : pad4 y ++ pad2 mo ++ pad2 d = pad4 y ++ (pad2 mo ++ pad2 d) :=
    List.append_assoc _ _ _
  have ht4 : (pad4 y ++ pad2 mo ++ pad2 d).take 4 = pad4 y := by
    rw [hD2]
    exact List.take_left' (by simp [pad4])
  have hd4 : (pad4 y ++ pad2 mo ++ pad2 d).drop 4 = pad2 mo ++ pad2 d := by
    rw [hD2]
    exact List.drop_left' (by simp [pad4])
  have ht2 : (pad2 mo ++ pad2 d).take 2 = pad2 mo := List.take_left' (by simp [pad2])
  have hd6 : (pad4 y ++ pad2 mo ++ pad2 d).drop (4 + 2) = pad2 d :=
    List.drop_left' (by simp [pad2, pad4])
  have htd2 : (pad2 d).take 2 = pad2 d := rfl
  have hfirst : dateTrySplit (pad4 y ++ pad2 mo ++ pad2 d) 4 2 2 monthOk2 dayOk2 =
      some (y, mo, d) := by
    unfold dateTrySplit
    rw [ht4, hd4, ht2, hd6, htd2]
    rw [if_pos ⟨by simp [pad2, pad4], by simp [pad4, isDigit_digitChar],
      monthOk2_pad2 mo hmo1 hmo2, dayOk2_pad2 d hd1 hd2⟩]
    rw [natOfDigits_pad4 y hy, natOfDigits_pad2 mo (by omega), natOfDigits_pad2 d (by omega)]
  unfold dateSplit
  rw [hfirst]
  simp [firstSome]

theorem timeSplit_pads (h mi s : Nat) (hh : h ≤ 23) (hmi : mi ≤ 59) (hs : s ≤ 59) :
    timeSplit (pad2 h ++ pad2 mi ++ pad2 s) = some (h, mi, s) := by
  have h1 := hourOk2_pad2 h hh
  have h2 := minuteOk2_pad2 mi hmi
  have h3 := secondOk2_pad2 s hs
  simp only [pad2, List.cons_append, List.nil_append] at h1 h2 h3 ⊢
  simp only [timeSplit, h1, h2, h3, Bool.and_self, if_true]
  rw [natOfDigits_two h (by omega), natOfDigits_two mi (by omega),
    natOfDigits_two s (by omega)]

theorem parse_ms_dt_fmt (dt : DateTime) (h : dtFieldsValid dt = true)
    (hy4 : 1000 ≤ dt.year) :
    parse_ms_dt (fmt_ms dt) = some (truncUsToMs dt) := by
  have hb := h
  simp only [dtFieldsValid, Bool.and_eq_true, decide_eq_true_eq] at hb
  obtain ⟨⟨⟨⟨⟨⟨⟨⟨⟨hy1, hy2⟩, hm1⟩, hm2⟩, hd1⟩, hdm⟩, hh23⟩, hmi59⟩, hs59⟩, hus⟩ := hb
  have hd31 : dt.day ≤ 31 := by
    have hdim : daysInMonth dt.year dt.month ≤ 31 := by
      unfold daysInMonth
      split <;> [split <;> omega; split <;> omega]
    omega
  have hform : fmt_ms dt =
      (pad4 dt.year ++ pad2 dt.month ++ pad2 dt.day) ++ '_' ::
        ((pad2 dt.hour ++ pad2 dt.minute ++ pad2 dt.second) ++ '_' ::
          pad3 (dt.microsecond / 1000)) := by
    rw [fmt_ms_eq dt hy4]
    simp [List.append_assoc]
  have hdp : '_' ∉ pad4 dt.year ++ pad2 dt.month ++ pad2 dt.day := by
    simp [pad2, pad4, underscore_ne_digitChar]
  have htp : '_' ∉ pad2 dt.hour ++ pad2 dt.minute ++ pad2 dt.second := by
    simp [pad2, underscore_ne_digitChar]
  have hmp : '_' ∉ pad3 (dt.microsecond / 1000) := by
    simp [pad3, underscore_ne_digitChar]
  have hsplit3 : pySplitU (fmt_ms dt) =
      [pad4 dt.year ++ pad2 dt.month ++ pad2 dt.day,
       pad2 dt.hour ++ pad2 dt.minute ++ pad2 dt.second,
       pad3 (dt.microsecond / 1000)] := by
    rw [hform, pySplitU_append_sep _ _ hdp, pySplitU_append_sep _ _ htp,
      pySplitU_no_sep _ hmp]
  have hint : pyIntOfString (pad3 (dt.microsecond / 1000)) =
      some (Int.ofNat (dt.microsecond / 1000)) := by
    rw [pyIntOfString_digits _ (by simp [pad3]) (by simp [pad3, isDigit_digitChar]),
      natOfDigits_pad3 _ (by omega)]
  have hdate := dateSplit_pads dt.year dt.month dt.day (by omega) hm1 hm2 hd1 hd31
  have htime := timeSplit_pads dt.hour dt.minute dt.second hh23 hmi59 hs59
  simp only [parse_ms_dt, hsplit3, hint, hdate, htime]
  have hcond : ¬(Int.ofNat (dt.microsecond / 1000) < 0 ∨
      999999 < Int.ofNat (dt.microsecond / 1000) * 1000) := by
    simp only [Int.ofNat_eq_coe]
    omega
  rw [if_neg hcond]
  have htn : (Int.ofNat (dt.microsecond / 1000) * 1000).toNat =
      dt.microsecond / 1000 * 1000 := by
    simp only [Int.ofNat_eq_coe]
    omega
  rw [htn]
  have ht : truncUsToMs dt = ⟨dt.year, dt.month, dt.day, dt.hour, dt.minute, dt.second,
      dt.microsecond / 1000 * 1000⟩ := rfl
  rw [← ht, if_pos (dtFieldsValid_truncUsToMs dt h)]

/-! ### List helper lemmas -/

theorem takeWhile_append_sep (p : Char → Bool) (l r : PyStr) (h : l.all p = true)
    (hsep : p '_' = false) :
    (l ++ '_' :: r).takeWhile p = l ∧ (l ++ '_' :: r).dropWhile p = '_' :: r := by
  induction l with
  | nil => simp [List.takeWhile, List.dropWhile, hsep]
  | cons c t ih =>
    simp only [List.all_cons, Bool.and_eq_true] at h
    have := ih h.2
    simp [List.takeWhile, List.dropWhile, h.1, this.1, this.2]

theorem takeWhile_of_all (p : Char → Bool) (l : PyStr) (h : l.all p = true) :
    l.takeWhile p = l := by
  induction l with
  | nil => rfl
  | cons c t ih =>
    simp only [List.all_cons, Bool.and_eq_true] at h
    simp [List.takeWhile, h.1, ih h.2]

theorem mem_of_getLast?_eq (l : PyStr) (c : Char) (h : l.getLast? = some c) : c ∈ l := by
  induction l with
  | nil => simp at h
  | cons a t ih =>
    match t with
    | [] =>
      simp only [List.getLast?_singleton, Option.some.injEq] at h
      simp [h]
    | b :: t2 =>
      rw [List.getLast?_cons_cons] at h
      exact List.mem_cons_of_mem a (ih h)

theorem restMatch_of_clean (r : PyStr) (h0 : r ≠ []) (hnl : '\n' ∉ r) :
    restMatch r = some r := by
  unfold restMatch
  have hg : r.getLast? ≠ some '\n' := fun hc => hnl (mem_of_getLast?_eq r '\n' hc)
  rw [if_neg hg, if_neg]
  intro hc
  rcases hc with hc | hc
  · exact h0 hc
  · exact hnl hc

/-! ### Decoding the encoder's output -/

theorem matchFilenameRE_encoded (sd ed : DateTime) (macc name : PyStr)
    (hys : 1000 ≤ sd.year) (hye : 1000 ≤ ed.year)
    (hm : macc ≠ []) (hhex : macc.all isHexDigitChar = true)
    (hname : name ≠ []) (hnl : '\n' ∉ name) :
    matchFilenameRE (encode_filename sd ed macc name) =
      some (fmt_ms sd, fmt_ms ed, macc, name) := by
  have hsep : isHexDigitChar '_' = false := rfl
  have htw := takeWhile_append_sep isHexDigitChar macc name hhex hsep
  simp only [matchFilenameRE, encode_filename,
    List.take_left' (length_fmt_ms sd hys), List.drop_left' (length_fmt_ms sd hys),
    List.take_left' (length_fmt_ms ed hye), List.drop_left' (length_fmt_ms ed hye),
    dtGroupShape_fmt_ms sd hys, dtGroupShape_fmt_ms ed hye, Bool.and_self, if_true,
    htw.1, htw.2]
  rw [if_neg hm, restMatch_of_clean name hname hnl]

theorem hex_not_sep (c : Char) (h : isHexDigitChar c = true) :
    ((c != ':') && (c != '-')) = true := by
  by_cases h1 : c = ':'
  · subst h1; exact absurd h (by decide)
  · by_cases h2 : c = '-'
    · subst h2; exact absurd h (by decide)
    · simp [h1, h2]

theorem mac_clean_of_hex (l : PyStr) (h : l.all isHexDigitChar = true) :
    mac_clean l = l := by
  rw [List.all_eq_true] at h
  exact List.filter_eq_self.mpr fun c hc => hex_not_sep c (h c hc)

theorem no_slash_osBasename (s : PyStr) : '/' ∉ osBasename s := by
  intro hc
  rw [osBasename, List.mem_reverse] at hc
  have := List.mem_takeWhile_imp hc
  simp at this

theorem osBasename_of_no_slash (s : PyStr) (h : '/' ∉ s) : osBasename s = s := by
  rw [osBasename, takeWhile_of_all, List.reverse_reverse]
  rw [List.all_eq_true]
  intro c hc
  rw [List.mem_reverse] at hc
  simp only [bne_iff_ne, ne_eq]
  intro he
  exact h (he ▸ hc)

theorem osBasename_idem (s : PyStr) : osBasename (osBasename s) = osBasename s :=
  osBasename_of_no_slash (osBasename s) (no_slash_osBasename s)

/-! ### Listing pipeline lemmas -/

theorem length_insertByStart (x : AudioItem) (l : List AudioItem) :
    (insertByStart x l).length = l.length + 1 := by
  induction l with
  | nil => rfl
  | cons y ys ih =>
    unfold insertByStart
    split
    · simp [ih]
    · simp

theorem length_sortByStart (l : List AudioItem) : (sortByStart l).length = l.length := by
  induction l with
  | nil => rfl
  | cons x xs ih => simp [sortByStart, length_insertByStart, ih]

theorem mem_insertByStart (a x : AudioItem) (l : List AudioItem) :
    a ∈ insertByStart x l ↔ a = x ∨ a ∈ l := by
  induction l with
  | nil => simp [insertByStart]
  | cons y ys ih =>
    unfold insertByStart
    split
    · simp only [List.mem_cons, ih]
      tauto
    · simp only [List.mem_cons]

theorem mem_sortByStart (a : AudioItem) (l : List AudioItem) :
    a ∈ sortByStart l ↔ a ∈ l := by
  induction l with
  | nil => simp [sortByStart]
  | cons x xs ih => simp [sortByStart, mem_insertByStart, ih]

theorem collectItems_parsed (baseUrl : PyStr) (macF : Option PyStr)
    (fromDt toDt : Option DateTime) (entries : List (PyStr × Nat))
    (items : List AudioItem) (h : collectItems baseUrl macF fromDt toDt entries = .ok items) :
    ∀ it ∈ items, ∃ r, parse_filename it.filename = .parsed r := by
  induction entries generalizing items with
  | nil =>
    unfold collectItems at h
    cases h
    intro it hit
    simp at hit
  | cons e rest ih =>
    obtain ⟨fname, sz⟩ := e
    unfold collectItems at h
    cases hp : parse_filename fname with
    | raises => rw [hp] at h; cases h
    | noMatch => rw [hp] at h; exact ih items h
    | parsed r =>
      rw [hp] at h
      cases hrest : collectItems baseUrl macF fromDt toDt rest with
      | error e2 => rw [hrest] at h; cases h
      | ok items2 =>
        rw [hrest] at h
        intro it hit
        by_cases hk : entryKept macF fromDt toDt r = true
        · cases h
          rw [if_pos hk] at hit
          rcases List.mem_cons.mp hit with he | hm
          · subst he
            exact ⟨r, hp⟩
          · exact ih items2 hrest it hm
        · cases h
          rw [if_neg hk] at hit
          exact ih items2 hrest it hit

/-! ### Shape lemmas for unpadded years -/

theorem dtGroupShape_take8 (s : PyStr) (h : dtGroupShape s = true) :
    (s.take 8).all Char.isDigit = true := by
  unfold dtGroupShape at h
  split at h
  next a1 a2 a3 a4 a5 a6 a7 a8 u1 b1 b2 b3 b4 b5 b6 u2 c1 c2 c3 =>
    simp only [List.take, List.all_cons, List.all_nil, Bool.and_eq_true] at h ⊢
    tauto
  next =>
    cases h

theorem matchFilenameRE_some_shape (l : PyStr) (g : PyStr × PyStr × PyStr × PyStr)
    (h : matchFilenameRE l = some g) :
    dtGroupShape (l.take 19) = true ∧ dtGroupShape ((l.drop 20).take 19) = true := by
  unfold matchFilenameRE at h
  split at h
  next l2 heq =>
    split at h
    next tail heq2 =>
      by_cases hcond : (dtGroupShape (l.take 19) && dtGroupShape (l2.take 19)) = true
      · rw [Bool.and_eq_true] at hcond
        have h20 : l.drop 20 = l2 := by
          have hd : (l.drop 19).drop 1 = l.drop 20 := List.drop_drop 1 19 l
          rw [← hd, heq]
          rfl
        exact ⟨hcond.1, h20 ▸ hcond.2⟩
      · rw [if_neg hcond] at h
        cases h
    next => cases h
  next => cases h

theorem underscore_mem_take8 (l1 r : PyStr) (h : l1.length ≤ 7) :
    '_' ∈ (l1 ++ '_' :: r).take 8 := by
  obtain ⟨k, hk⟩ : ∃ k, 8 - l1.length = k + 1 := ⟨7 - l1.length, by omega⟩
  have h8 : (8 : Nat) = l1.length + (k + 1) := by omega
  rw [h8, List.take_append]
  simp [List.take_succ_cons]

theorem small_year_take19_not_shape (dt : DateTime) (r : PyStr) (hy : dt.year ≤ 999)
    (h : dtGroupShape ((fmt_ms dt ++ '_' :: r).take 19) = true) : False := by
  have h8 := dtGroupShape_take8 _ h
  rw [List.take_take] at h8
  have hmin : (8 : Nat) ⊓ 19 = 8 := rfl
  rw [hmin] at h8
  have hform : fmt_ms dt ++ '_' :: r =
      (padYear dt.year ++ pad2 dt.month ++ pad2 dt.day) ++ '_' ::
        ((pad2 dt.hour ++ pad2 dt.minute ++ pad2 dt.second) ++ '_' ::
          (pad3 (dt.microsecond / 1000) ++ '_' :: r)) := by
    rw [fmt_ms_eq_gen]
    simp [List.append_assoc]
  rw [hform] at h8
  have hlen : (padYear dt.year ++ pad2 dt.month ++ pad2 dt.day).length ≤ 7 := by
    have := length_padYear_le dt.year hy
    simp only [List.length_append, pad2, List.length_cons, List.length_nil]
    omega
  have hmem := underscore_mem_take8 _
    ((pad2 dt.hour ++ pad2 dt.minute ++ pad2 dt.second) ++ '_' ::
      (pad3 (dt.microsecond / 1000) ++ '_' :: r)) hlen
  have hdig := List.all_eq_true.mp h8 '_' hmem
  exact absurd hdig (by decide)

/-! ### Claim theorems -/

/-- C1: the claim says `parse_filename` is total and never raises, returning
"no match" for any string whose date/time groups are digit-shaped but not a
valid calendar date/time.  The code violates this: on the digit-shaped but
calendar-invalid name below (February 30th), the regex matches and the
un-guarded `strptime` call raises `ValueError` instead of returning `None`.
This theorem evaluates the embedded code at that failing input. -/
theorem c1_parse_filename_raises_on_invalid_calendar :
    parse_filename ("20260230_120000_000_20260230_120000_000_A_x.wav".data) =
      .raises := by decide

/-- C2 counterexample: the claim as stated (decode of encode reproduces the
tuple for every hex device id and every non-empty, delimiter-unambiguous
name) fails at the name `"a\n"`: `.` in the pattern `.+$` cannot match a
newline but `$` accepts one final trailing newline, so the decoder returns
the rest group `"a"`, not the original name `"a\n"`. -/
theorem c2_counterexample :
    (['a', '\n'] : PyStr) ≠ [] ∧ (['A'] : PyStr).all isHexDigitChar = true ∧
    parse_filename (upload_filename dtSampleA dtSampleA ['A'] ['a', '\n']) ≠
      .parsed ⟨upload_filename dtSampleA dtSampleA ['A'] ['a', '\n'], ['A'],
        truncUsToMs dtSampleA, truncUsToMs dtSampleA, ['a', '\n']⟩ := by decide

/-- C2 (amended): for all instants `sd`, `ed` with the legal `datetime`
field ranges and four-digit years (at least 1000 — below that the
platform's unpadded `%Y` breaks the fixed-width grammar), every non-empty
hex device id, and every non-empty name that equals its basename (no `/`)
and contains no newline, decoding the encoded filename reproduces
(start, end, deviceId, name), the instants at millisecond precision. -/
theorem c2_decode_encode_roundtrip (sd ed : DateTime) (dev name : PyStr)
    (hsd : dtFieldsValid sd = true) (hed : dtFieldsValid ed = true)
    (hys : 1000 ≤ sd.year) (hye : 1000 ≤ ed.year)
    (hdev0 : dev ≠ []) (hdev : dev.all isHexDigitChar = true)
    (hname : name ≠ []) (hslash : '/' ∉ name) (hnl : '\n' ∉ name) :
    parse_filename (upload_filename sd ed dev name) =
      .parsed ⟨upload_filename sd ed dev name, dev, truncUsToMs sd, truncUsToMs ed,
        name⟩ := by
  unfold upload_filename
  rw [mac_clean_of_hex dev hdev, osBasename_of_no_slash name hslash]
  unfold parse_filename
  rw [matchFilenameRE_encoded sd ed dev name hys hye hdev0 hdev hname hnl]
  simp only [parse_ms_dt_fmt sd hsd hys, parse_ms_dt_fmt ed hed hye]

/-- Witness for C2 (amended) at a concrete input. -/
theorem c2_roundtrip_witness :
    parse_filename (upload_filename dtSampleA dtSampleA ['A'] ['x']) =
      .parsed ⟨upload_filename dtSampleA dtSampleA ['A'] ['x'], ['A'],
        truncUsToMs dtSampleA, truncUsToMs dtSampleA, ['x']⟩ :=
  c2_decode_encode_roundtrip dtSampleA dtSampleA ['A'] ['x'] (by decide) (by decide)
    (by decide) (by decide) (by decide) (by decide) (by decide) (by decide) (by decide)

/-- C3 counterexample: the claim says the value is treated as milliseconds
iff its absolute value is at least 10^12.  The code compares the signed
value (`ts_int >= 1_000_000_000_000`), so `-10^12`, whose absolute value
meets the threshold, is still multiplied by 1000 (treated as seconds) and
the resulting out-of-range timestamp surfaces as HTTP 500. -/
theorem c3_counterexample :
    ((-1000000000000 : Int).natAbs ≥ 1000000000000) ∧
    ts_epoch_ms (-1000000000000) = (-1000000000000) * 1000 ∧
    ts_epoch_ms (-1000000000000) ≠ -1000000000000 ∧
    ts_to_local_datetime (.int (-1000000000000)) = .error 500 :=
  ⟨by decide, by decide, by decide, rfl⟩

/-- C3 (amended): the Timestamp Normalizer treats an integer epoch value as
milliseconds iff the signed value is at least 10^12 (so every negative
value is treated as seconds), and non-numeric input fails with
HTTP 400. -/
theorem c3_ts_unit_rule (e : Int) (s : PyStr) (hs : pyIntOfString s = none) :
    (e ≥ 1000000000000 → ts_to_local_datetime (.int e) = tsFrom (dtOfEpochMs e)) ∧
    (e < 1000000000000 → ts_to_local_datetime (.int e) = tsFrom (dtOfEpochMs (e * 1000))) ∧
    ts_to_local_datetime (.str s) = .error 400 := by
  refine ⟨fun h => ?_, fun h => ?_, ?_⟩
  · rw [show ts_to_local_datetime (.int e) = tsFrom (dtOfEpochMs (ts_epoch_ms e)) from rfl,
      ts_epoch_ms, if_pos h]
  · rw [show ts_to_local_datetime (.int e) = tsFrom (dtOfEpochMs (ts_epoch_ms e)) from rfl,
      ts_epoch_ms, if_neg (not_le.mpr h)]
  · show (match pyIntOfString s with
        | none => (Except.error 400 : Except Nat DateTime)
        | some i => tsFrom (dtOfEpochMs (ts_epoch_ms i))) = Except.error 400
    rw [hs]

/-- Witness for C3 (amended) at concrete inputs: `1770000000` is below the
threshold and is scaled to milliseconds; a non-numeric string yields
HTTP 400. -/
theorem c3_ts_unit_rule_witness :
    ts_to_local_datetime (.int 1770000000) = tsFrom (dtOfEpochMs (1770000000 * 1000)) ∧
    ts_to_local_datetime (.str ("abc".data)) = .error 400 :=
  ⟨(c3_ts_unit_rule 1770000000 ("abc".data) (by decide)).2.1 (by decide),
   (c3_ts_unit_rule 1770000000 ("abc".data) (by decide)).2.2⟩

/-- C4: for every decoded entry and optional from/to instants, the listing's
per-entry time filter keeps the entry iff (no `fromInstant` is given OR the
entry's end instant is at least `fromInstant`) AND (no `toInstant` is given
OR the entry's start instant is at most `toInstant`) — the spec's overlap
test, so a recording straddling a boundary is kept. -/
theorem c4_time_filter_is_overlap (fromDt toDt : Option DateTime) (r : DecodedRecord) :
    entryKept none fromDt toDt r = true ↔ specOverlapKeep fromDt toDt r := by
  cases fromDt <;> cases toDt <;>
    simp [entryKept, specOverlapKeep, dtLe]

/-- Witness for C4: the entry spanning 10:00-10:30 is kept under
`from = 10:15`, which lies strictly inside the recording. -/
theorem c4_overlap_witness :
    entryKept none (some ⟨2026, 2, 4, 10, 15, 0, 0⟩) none recStraddle = true :=
  (c4_time_filter_is_overlap (some ⟨2026, 2, 4, 10, 15, 0, 0⟩) none recStraddle).mpr
    ⟨fun f hf => by cases hf; decide, fun t ht => Option.noConfusion ht⟩

/-- C5: the listing result is truncated to `max(1, limit)` entries and the
`limit` query parameter defaults to 500; for every non-empty filtered result
set, a limit of 0 or negative still returns exactly one item. -/
theorem c5_limit_cap (entries : List (PyStr × Nat)) (baseUrl : PyStr)
    (macF : Option PyStr) (fromDt toDt : Option DateTime) (limit : Int)
    (resp : ListResponse)
    (h : list_audio entries baseUrl macF fromDt toDt limit = .ok resp) :
    resp.data.length = min (max 1 limit).toNat resp.count ∧
    (limit ≤ 0 → 0 < resp.count → resp.data.length = 1) ∧
    list_audio_default_limit = 500 := by
  unfold list_audio at h
  cases hc : collectItems baseUrl macF fromDt toDt entries with
  | error e => rw [hc] at h; cases h
  | ok items =>
    rw [hc] at h
    cases h
    refine ⟨?_, ?_, rfl⟩
    · simp [List.length_take, length_sortByStart]
    · intro hl hcount
      simp only [List.length_take, length_sortByStart] at *
      omega

/-- Witness for C5: on a directory of two managed files with `limit = 0`,
the response still contains exactly one item. -/
theorem c5_limit_witness : respC5.data.length = 1 :=
  (c5_limit_cap entriesSample [] none none none 0 respC5 rfl).2.1 (by decide) (by decide)

/-- C6 counterexample: the claim as stated quantifies over every valid
epoch integer, but normalizing -40000000000 seconds yields a year-702
instant; glibc `%Y` prints `702` unpadded, and `strptime` re-splits the
seven date digits as a 4-digit year, 1-digit month and 2-digit day, so
parsing the formatted string yields a different instant (year 7020) and
the round-trip fails. -/
theorem c6_counterexample :
    ts_to_local_datetime (.int (-40000000000)) = .ok dtC6cex ∧
    dtC6cex.year < 1000 ∧
    parse_ms_dt (fmt_ms dtC6cex) ≠ some dtC6cex :=
  ⟨rfl, by decide, by decide⟩

/-- C6 (amended): normalizing any integer-like epoch value to an instant
whose year has four digits (at least 1000 — every timestamp after
1000-01-01 server-local time), formatting that instant as
`YYYYMMDD_HHMMSS_mmm` and parsing the string back with `parse_ms_dt`
reproduces the very same instant (the normalizer only produces whole
milliseconds, so nothing is lost to the `[:-3]` truncation). -/
theorem c6_normalize_format_roundtrip (v : TsValue) (dt : DateTime)
    (h : ts_to_local_datetime v = .ok dt) (hy : 1000 ≤ dt.year) :
    parse_ms_dt (fmt_ms dt) = some dt := by
  cases hp : pyToInt v with
  | none =>
    have h400 : ts_to_local_datetime v = .error 400 := by
      unfold ts_to_local_datetime
      rw [hp]
    rw [h400] at h
    cases h
  | some i =>
    have hred : ts_to_local_datetime v = tsFrom (dtOfEpochMs (ts_epoch_ms i)) := by
      unfold ts_to_local_datetime
      rw [hp]
    rw [hred] at h
    cases hdt : dtOfEpochMs (ts_epoch_ms i) with
    | none => rw [hdt] at h; cases h
    | some dt0 =>
      rw [hdt] at h
      simp only [tsFrom, Except.ok.injEq] at h
      subst h
      simp only [dtOfEpochMs] at hdt
      split at hdt
      case isTrue hv =>
        rw [Option.some.injEq] at hdt
        subst hdt
        rw [parse_ms_dt_fmt _ hv hy]
        have htr : ∀ a b c d e f g : Nat,
            truncUsToMs ⟨a, b, c, d, e, f, g * 1000⟩ = ⟨a, b, c, d, e, f, g * 1000⟩ := by
          intro a b c d e f g
          have hg : g * 1000 / 1000 * 1000 = g * 1000 := by omega
          simp [truncUsToMs, hg]
        rw [htr]
      case isFalse hv => cases hdt

/-- Witness for C6 (amended) at the concrete epoch 1770000000 seconds. -/
theorem c6_roundtrip_witness : parse_ms_dt (fmt_ms dtC6) = some dtC6 :=
  c6_normalize_format_roundtrip (.int 1770000000) dtC6 rfl (by decide)

/-- C7: when a (non-empty, hence Python-truthy) device filter is given, the
listing's per-entry filter keeps exactly the entries whose decoded device id
equals the filter's device id under case-insensitive comparison, on top of
the remaining time filters. -/
theorem c7_mac_filter_case_insensitive (m : PyStr) (hm : m ≠ [])
    (fromDt toDt : Option DateTime) (r : DecodedRecord) :
    entryKept (some m) fromDt toDt r = true ↔
      (pyLower r.mac = pyLower m ∧ entryKept none fromDt toDt r = true) := by
  simp only [entryKept, if_neg hm, Bool.true_and, Bool.and_eq_true, beq_iff_eq]
  tauto

/-- Witness for C7: stored device id `4CFF01A007C2` matches the query
`mac=4cff01a007c2`. -/
theorem c7_mac_filter_witness :
    entryKept (some ("4cff01a007c2".data)) none none recHexMac = true :=
  (c7_mac_filter_case_insensitive ("4cff01a007c2".data) (by decide) none none
    recHexMac).mpr ⟨by decide, rfl⟩

/-- C8: the retrieval endpoint uses only the basename of the supplied
filename (so the result for any path-shaped input equals the result for its
basename, and `../../etc/passwd` resolves to `passwd`), and returns
HTTP 404 when the resolved file is absent from the storage directory. -/
theorem c8_basename_only_and_404 (files : List PyStr) (fn : PyStr) :
    get_audio_file files fn = get_audio_file files (osBasename fn) ∧
    (osBasename fn ≠ [] → osBasename fn ∉ files → get_audio_file files fn = .error 404) ∧
    osBasename ("../../etc/passwd".data) = "passwd".data := by
  refine ⟨?_, ?_, by decide⟩
  · unfold get_audio_file
    rw [osBasename_idem]
  · intro h1 h2
    unfold get_audio_file
    rw [if_neg]
    intro hc
    rcases hc with hc | hc
    · exact h1 hc
    · exact h2 hc

/-- Witness for C8: with an empty storage directory, a path-shaped filename
resolves to its basename and yields HTTP 404. -/
theorem c8_retrieval_witness : get_audio_file [] (['a', '/', 'y'] : PyStr) = .error 404 :=
  (c8_basename_only_and_404 [] ['a', '/', 'y']).2.1 (by decide) (by decide)

/-- C9: in every successful listing response, `count` is the number of
entries that survived decoding and filtering before the cap, while `data`
is the capped, sorted list — so whenever the filtered set exceeds
`max(1, limit)`, `count` strictly exceeds the length of `data`. -/
theorem c9_count_is_precap (entries : List (PyStr × Nat)) (baseUrl : PyStr)
    (macF : Option PyStr) (fromDt toDt : Option DateTime) (limit : Int)
    (resp : ListResponse)
    (h : list_audio entries baseUrl macF fromDt toDt limit = .ok resp) :
    (∃ items, collectItems baseUrl macF fromDt toDt entries = .ok items ∧
      resp.count = items.length ∧
      resp.data = (sortByStart items).take (max 1 limit).toNat) ∧
    ((max 1 limit).toNat < resp.count → resp.data.length < resp.count) := by
  unfold list_audio at h
  cases hc : collectItems baseUrl macF fromDt toDt entries with
  | error e => rw [hc] at h; cases h
  | ok items =>
    rw [hc] at h
    cases h
    refine ⟨⟨items, rfl, rfl, rfl⟩, ?_⟩
    intro hlt
    simp only [List.length_take, length_sortByStart] at *
    omega

/-- Witness for C9: two managed files with `limit = 1` yield `count = 2`
but a single-element `data`. -/
theorem c9_count_witness : respC9.data.length < respC9.count :=
  (c9_count_is_precap entriesSample [] none none none 1 respC9 rfl).2 (by decide)

/-- C10 counterexample: the claim says decode returns "no match" for every
upload whose metadata name has an empty basename.  If the metadata mac
contains an underscore (which `mac_clean` does not strip), the stored name
`..._AB_CD_` is re-parsed by the regex with device id `AB` and rest `CD_`,
so decode succeeds and the file would appear in listings. -/
theorem c10_counterexample :
    osBasename (['x', '/'] : PyStr) = [] ∧
    parse_filename (upload_filename dtSampleA dtSampleA ("AB_CD".data) ['x', '/']) ≠
      .noMatch := by decide

/-- C10 (amended): for an upload whose metadata name has an empty basename
and whose cleaned mac consists of hex characters only (the normal
MAC-address case), the stored name ends with a trailing underscore and an
empty original name, decode returns "no match" on it, and the stored file
never appears in any successful listing result. -/
theorem c10_empty_basename_never_listed (sd ed : DateTime) (mac name : PyStr)
    (hb : osBasename name = []) (hhex : (mac_clean mac).all isHexDigitChar = true) :
    (upload_filename sd ed mac name).getLast? = some '_' ∧
    parse_filename (upload_filename sd ed mac name) = .noMatch ∧
    (∀ entries baseUrl macF fromDt toDt limit resp,
      list_audio entries baseUrl macF fromDt toDt limit = .ok resp →
      ∀ it ∈ resp.data, it.filename ≠ upload_filename sd ed mac name) := by
  have hshape : upload_filename sd ed mac name =
      fmt_ms sd ++ '_' :: (fmt_ms ed ++ '_' :: (mac_clean mac ++ '_' :: [])) := by
    unfold upload_filename encode_filename
    rw [hb]
  have hsep : isHexDigitChar '_' = false := rfl
  have htw := takeWhile_append_sep isHexDigitChar (mac_clean mac) [] hhex hsep
  have hmatch : matchFilenameRE
      (fmt_ms sd ++ '_' :: (fmt_ms ed ++ '_' :: (mac_clean mac ++ '_' :: []))) = none := by
    by_cases hy1 : 1000 ≤ sd.year
    · by_cases hy2 : 1000 ≤ ed.year
      · simp only [matchFilenameRE,
          List.take_left' (length_fmt_ms sd hy1), List.drop_left' (length_fmt_ms sd hy1),
          List.take_left' (length_fmt_ms ed hy2), List.drop_left' (length_fmt_ms ed hy2),
          dtGroupShape_fmt_ms sd hy1, dtGroupShape_fmt_ms ed hy2, Bool.and_self, if_true,
          htw.1, htw.2]
        split <;> rfl
      · cases hm2 : matchFilenameRE
            (fmt_ms sd ++ '_' :: (fmt_ms ed ++ '_' :: (mac_clean mac ++ '_' :: []))) with
        | none => rfl
        | some g =>
          exfalso
          have hsh := (matchFilenameRE_some_shape _ g hm2).2
          have hd19 : (fmt_ms sd ++ '_' ::
                (fmt_ms ed ++ '_' :: (mac_clean mac ++ '_' :: []))).drop 19 =
              '_' :: (fmt_ms ed ++ '_' :: (mac_clean mac ++ '_' :: [])) :=
            List.drop_left' (length_fmt_ms sd hy1)
          have hdrop : (fmt_ms sd ++ '_' ::
                (fmt_ms ed ++ '_' :: (mac_clean mac ++ '_' :: []))).drop 20 =
              fmt_ms ed ++ '_' :: (mac_clean mac ++ '_' :: []) := by
            have hdd : List.drop 1 (List.drop 19 (fmt_ms sd ++ '_' ::
                (fmt_ms ed ++ '_' :: (mac_clean mac ++ '_' :: [])))) =
                List.drop 20 (fmt_ms sd ++ '_' ::
                (fmt_ms ed ++ '_' :: (mac_clean mac ++ '_' :: []))) := by
              rw [List.drop_drop]
            rw [← hdd, hd19]
            rfl
          rw [hdrop] at hsh
          exact small_year_take19_not_shape ed _ (by omega) hsh
    · cases hm2 : matchFilenameRE
          (fmt_ms sd ++ '_' :: (fmt_ms ed ++ '_' :: (mac_clean mac ++ '_' :: []))) with
      | none => rfl
      | some g =>
        exfalso
        have hsh := (matchFilenameRE_some_shape _ g hm2).1
        exact small_year_take19_not_shape sd _ (by omega) hsh
  have hnomatch : parse_filename (upload_filename sd ed mac name) = .noMatch := by
    unfold parse_filename
    rw [hshape, hmatch]
  refine ⟨?_, hnomatch, ?_⟩
  · rw [hshape]
    have : fmt_ms sd ++ '_' :: (fmt_ms ed ++ '_' :: (mac_clean mac ++ '_' :: [])) =
        (fmt_ms sd ++ '_' :: (fmt_ms ed ++ '_' :: mac_clean mac)) ++ ['_'] := by
      simp
    rw [this, List.getLast?_concat]
  · intro entries baseUrl macF fromDt toDt limit resp h it hit he
    unfold list_audio at h
    cases hc : collectItems baseUrl macF fromDt toDt entries with
    | error e => rw [hc] at h; cases h
    | ok items =>
      rw [hc] at h
      cases h
      have hmem : it ∈ sortByStart items := List.take_subset _ _ hit
      have hmem2 : it ∈ items := (mem_sortByStart _ _).mp hmem
      obtain ⟨r, hr⟩ := collectItems_parsed baseUrl macF fromDt toDt entries items hc it hmem2
      rw [he, hnomatch] at hr
      cases hr

/-- Witness for C10 (amended) at a concrete input: name `x/` has an empty
basename, mac `ABCD` is hex, and the stored name fails to decode. -/
theorem c10_empty_basename_witness :
    parse_filename (upload_filename dtSampleA dtSampleA ("ABCD".data) ['x', '/']) =
      .noMatch :=
  (c10_empty_basename_never_listed dtSampleA dtSampleA ("ABCD".data) ['x', '/']
    (by decide) (by decide)).2.1
